import Mathlib

/-!
# Verification of the Vélib ETL ingestion pipeline (`app/etl.py`)

Shallow embedding of the resumable snapshot-import pipeline: the filename
timestamp parser, the progress store (load / save / rebuild), the snapshot
decoder and fact extractor, the transactional batch writer, and the
pipeline driver `import_data_from_folder`, together with theorems about
idempotence, error accounting, rollback and progress persistence.
-/

namespace Velib

/-- A JSON value, the domain of `json.loads`.  Numbers are modelled as
rationals (JSON numbers are finite decimals). -/
inductive Json where
  | null : Json
  | bool (b : Bool) : Json
  | num (q : Rat) : Json
  | str (s : String) : Json
  | arr (xs : List Json) : Json
  | obj (fs : List (String × Json)) : Json
deriving Repr

mutual

/-- Decidable equality of JSON values. -/
def Json.decEq : (a b : Json) → Decidable (a = b)
  | .null, .null => isTrue rfl
  | .bool a, .bool b =>
    match inferInstanceAs (Decidable (a = b)) with
    | isTrue h => isTrue (by rw [h])
    | isFalse h => isFalse (fun hh => h (Json.bool.inj hh))
  | .num a, .num b =>
    match inferInstanceAs (Decidable (a = b)) with
    | isTrue h => isTrue (by rw [h])
    | isFalse h => isFalse (fun hh => h (Json.num.inj hh))
  | .str a, .str b =>
    match inferInstanceAs (Decidable (a = b)) with
    | isTrue h => isTrue (by rw [h])
    | isFalse h => isFalse (fun hh => h (Json.str.inj hh))
  | .arr xs, .arr ys =>
    match Json.decEqList xs ys with
    | isTrue h => isTrue (by rw [h])
    | isFalse h => isFalse (fun hh => h (Json.arr.inj hh))
  | .obj fs, .obj gs =>
    match Json.decEqObj fs gs with
    | isTrue h => isTrue (by rw [h])
    | isFalse h => isFalse (fun hh => h (Json.obj.inj hh))
  | .null, .bool _ | .null, .num _ | .null, .str _ | .null, .arr _ | .null, .obj _
  | .bool _, .null | .bool _, .num _ | .bool _, .str _ | .bool _, .arr _ | .bool _, .obj _
  | .num _, .null | .num _, .bool _ | .num _, .str _ | .num _, .arr _ | .num _, .obj _
  | .str _, .null | .str _, .bool _ | .str _, .num _ | .str _, .arr _ | .str _, .obj _
  | .arr _, .null | .arr _, .bool _ | .arr _, .num _ | .arr _, .str _ | .arr _, .obj _
  | .obj _, .null | .obj _, .bool _ | .obj _, .num _ | .obj _, .str _ | .obj _, .arr _ =>
    isFalse (by intro h; exact Json.noConfusion h)

/-- Decidable equality of lists of JSON values. -/
def Json.decEqList : (xs ys : List Json) → Decidable (xs = ys)
  | [], [] => isTrue rfl
  | [], _ :: _ => isFalse (by intro h; exact List.noConfusion h)
  | _ :: _, [] => isFalse (by intro h; exact List.noConfusion h)
  | x :: xs, y :: ys =>
    match Json.decEq x y with
    | isTrue h1 =>
      match Json.decEqList xs ys with
      | isTrue h2 => isTrue (by rw [h1, h2])
      | isFalse h2 => isFalse (fun hh => h2 (List.cons.inj hh).2)
    | isFalse h1 => isFalse (fun hh => h1 (List.cons.inj hh).1)

/-- Decidable equality of JSON object field lists. -/
def Json.decEqObj : (fs gs : List (String × Json)) → Decidable (fs = gs)
  | [], [] => isTrue rfl
  | [], _ :: _ => isFalse (by intro h; exact List.noConfusion h)
  | _ :: _, [] => isFalse (by intro h; exact List.noConfusion h)
  | (k, v) :: fs, (l, w) :: gs =>
    match inferInstanceAs (Decidable (k = l)) with
    | isTrue hk =>
      match Json.decEq v w with
      | isTrue hv =>
        match Json.decEqObj fs gs with
        | isTrue h2 => isTrue (by rw [hk, hv, h2])
        | isFalse h2 => isFalse (fun hh => h2 (List.cons.inj hh).2)
      | isFalse hv =>
        isFalse (fun hh => hv (congrArg Prod.snd (List.cons.inj hh).1))
    | isFalse hk => isFalse (fun hh => hk (congrArg Prod.fst (List.cons.inj hh).1))

end

instance : DecidableEq Json := Json.decEq

/-- Python truthiness (`if not x`) of a JSON value: `None`, `False`, `0`,
`""`, `[]` and `{}` are falsy. -/
def Json.truthy : Json → Bool
  | .null => false
  | .bool b => b
  | .num q => q != 0
  | .str s => s ≠ ""
  | .arr xs => !xs.isEmpty
  | .obj fs => !fs.isEmpty

/-- Is the value a JSON array (a Python `list`)? -/
def Json.isArr : Json → Bool
  | .arr _ => true
  | _ => false

/-- `x.get(key, default)` on a decoded value: returns the binding (or the
default) when `x` is an object, and raises (`AttributeError`) otherwise. -/
def pyGet (j : Json) (key : String) (default : Json) : Except Unit Json :=
  match j with
  | .obj fs => .ok ((fs.lookup key).getD default)
  | _ => .error ()

/-- A `datetime.datetime` value as produced by `strptime` (microseconds are
always zero for the format used here). -/
structure DateTime where
  year : Nat
  month : Nat
  day : Nat
  hour : Nat
  minute : Nat
  second : Nat
deriving DecidableEq, Repr

/-! ## Filename timestamp parser (`parse_timestamp_from_filename`)

`datetime.strptime(s, '%Y%m%d_%H%M%S')` is modelled by the regular
expression CPython builds for that format — `%Y` is four digits, `%m` is
`1[0-2]|0[1-9]|[1-9]`, `%d` is `3[01]|[12]\d|0[1-9]|[1-9]`, `%H` is
`2[0-3]|[0-1]\d|\d`, `%M` is `[0-5]\d|\d`, `%S` is `6[0-1]|[0-5]\d|\d` —
matched left to right with alternation preference and backtracking, after
which the match must cover the whole string ("unconverted data remains"
otherwise) and the captured fields must form a valid `datetime`. -/

/-- Numeric value of a decimal digit character. -/
def digitVal (c : Char) : Nat := c.toNat - '0'.toNat

/-- `%Y`: exactly four digits. -/
def reYear : List Char → List (Nat × List Char)
  | a :: b :: c :: d :: rest =>
    if a.isDigit && b.isDigit && c.isDigit && d.isDigit then
      [(digitVal a * 1000 + digitVal b * 100 + digitVal c * 10 + digitVal d, rest)]
    else []
  | _ => []

/-- `%m`: `1[0-2]|0[1-9]|[1-9]`, two-digit alternatives first. -/
def reMonth (cs : List Char) : List (Nat × List Char) :=
  (match cs with
   | a :: b :: rest =>
     if (a = '1' && '0' ≤ b && b ≤ '2') || (a = '0' && '1' ≤ b && b ≤ '9') then
       [(digitVal a * 10 + digitVal b, rest)]
     else []
   | _ => []) ++
  (match cs with
   | a :: rest => if '1' ≤ a && a ≤ '9' then [(digitVal a, rest)] else []
   | _ => [])

/-- `%d`: `3[01]|[12]\d|0[1-9]|[1-9]`, two-digit alternatives first. -/
def reDay (cs : List Char) : List (Nat × List Char) :=
  (match cs with
   | a :: b :: rest =>
     if (a = '3' && '0' ≤ b && b ≤ '1') || (('1' ≤ a && a ≤ '2') && b.isDigit) ||
        (a = '0' && '1' ≤ b && b ≤ '9') then
       [(digitVal a * 10 + digitVal b, rest)]
     else []
   | _ => []) ++
  (match cs with
   | a :: rest => if '1' ≤ a && a ≤ '9' then [(digitVal a, rest)] else []
   | _ => [])

/-- `%H`: `2[0-3]|[0-1]\d|\d`, two-digit alternatives first. -/
def reHour (cs : List Char) : List (Nat × List Char) :=
  (match cs with
   | a :: b :: rest =>
     if (a = '2' && '0' ≤ b && b ≤ '3') || (('0' ≤ a && a ≤ '1') && b.isDigit) then
       [(digitVal a * 10 + digitVal b, rest)]
     else []
   | _ => []) ++
  (match cs with
   | a :: rest => if a.isDigit then [(digitVal a, rest)] else []
   | _ => [])

/-- `%M`: `[0-5]\d|\d`, two-digit alternative first. -/
def reMinute (cs : List Char) : List (Nat × List Char) :=
  (match cs with
   | a :: b :: rest =>
     if ('0' ≤ a && a ≤ '5') && b.isDigit then
       [(digitVal a * 10 + digitVal b, rest)]
     else []
   | _ => []) ++
  (match cs with
   | a :: rest => if a.isDigit then [(digitVal a, rest)] else []
   | _ => [])

/-- `%S`: `6[0-1]|[0-5]\d|\d`, two-digit alternatives first. -/
def reSecond (cs : List Char) : List (Nat × List Char) :=
  (match cs with
   | a :: b :: rest =>
     if (a = '6' && '0' ≤ b && b ≤ '1') || (('0' ≤ a && a ≤ '5') && b.isDigit) then
       [(digitVal a * 10 + digitVal b, rest)]
     else []
   | _ => []) ++
  (match cs with
   | a :: rest => if a.isDigit then [(digitVal a, rest)] else []
   | _ => [])

/-- The whole `%Y%m%d_%H%M%S` regex: leftmost match with backtracking. -/
def reTimestampMatch (cs : List Char) :
    Option (Nat × Nat × Nat × Nat × Nat × Nat × List Char) :=
  (reYear cs).findSome? fun (y, r1) =>
  (reMonth r1).findSome? fun (m, r2) =>
  (reDay r2).findSome? fun (d, r3) =>
  match r3 with
  | '_' :: r4 =>
    (reHour r4).findSome? fun (hh, r5) =>
    (reMinute r5).findSome? fun (mi, r6) =>
    (reSecond r6).findSome? fun (ss, r7) =>
    some (y, m, d, hh, mi, ss, r7)
  | _ => none

/-- Length of a month in days, as validated by `datetime.datetime`. -/
def daysInMonth (y m : Nat) : Nat :=
  if m = 2 then
    if y % 4 = 0 && (y % 100 ≠ 0 || y % 400 = 0) then 29 else 28
  else if m = 4 || m = 6 || m = 9 || m = 11 then 30
  else 31

/-- `datetime.strptime(s, '%Y%m%d_%H%M%S')`, returning `none` where Python
raises `ValueError`: either the regex does not match, unconverted data
remains after the match, or the captured fields do not form a valid
`datetime` (year 0, impossible day of month, leap second). -/
def strptimeYmdHMS (s : String) : Option DateTime :=
  match reTimestampMatch s.data with
  | some (y, m, d, hh, mi, ss, rest) =>
    if rest.isEmpty && 1 ≤ y && 1 ≤ d && d ≤ daysInMonth y m && ss ≤ 59 then
      some ⟨y, m, d, hh, mi, ss⟩
    else none
  | none => none

/-- Python's `str.split('_')`: splits at every underscore, keeping empty
tokens; the empty string yields `[""]`. -/
def splitUnderscore : List Char → List (List Char)
  | [] => [[]]
  | c :: rest =>
    match splitUnderscore rest with
    | [] => [[]]
    | cur :: parts =>
      if c = '_' then [] :: cur :: parts else (c :: cur) :: parts

/-- `parse_timestamp_from_filename`: joins the second and third
underscore-separated tokens of the filename with `'_'` and parses the
result with `strptime('%Y%m%d_%H%M%S')`; any exception (missing tokens,
parse failure) is swallowed by the bare `except` and yields `None`. -/
def parse_timestamp_from_filename (filename : String) : Option DateTime :=
  match splitUnderscore filename.data with
  | _ :: t1 :: t2 :: _ => strptimeYmdHMS (String.mk (t1 ++ '_' :: t2))
  | _ => none

/-! ## Relational store

The five tables written by the pipeline.  Values coming from the decoded
JSON are kept as `Json` (psycopg2 passes them through as SQL parameters).
`next_id` models the `snapshot_id` sequence. -/

/-- A row of the `station` dimension table (natural key `station_code`). -/
structure StationRow where
  station_code : Json
  name : Json
  latitude : Json
  longitude : Json
  stationtype : Json
  type : Json
deriving DecidableEq, Repr

/-- A row of the `velo` dimension table (natural key `velo_name`). -/
structure VeloRow where
  velo_name : Json
  bikeelectric : Json
deriving DecidableEq, Repr

/-- A row of the `etat_station` fact table. -/
structure EtatRow where
  snapshot_id : Nat
  station_code : Json
  state : Json
  nbbike : Json
  nbebike : Json
  nbfreedock : Json
deriving DecidableEq, Repr

/-- A row of the `localisation_velo` fact table. -/
structure LocRow where
  snapshot_id : Nat
  velo_name : Json
  station_code : Json
  bikestatus : Json
  dockposition : Json
deriving DecidableEq, Repr

/-- The relational state: the five tables plus the snapshot-id sequence. -/
structure DB where
  snapshot : List (Nat × DateTime)
  station : List StationRow
  velo : List VeloRow
  etat_station : List EtatRow
  localisation_velo : List LocRow
  next_id : Nat
deriving DecidableEq, Repr

/-- The empty database. -/
def emptyDB : DB := ⟨[], [], [], [], [], 0⟩

/-- A psycopg2 connection: the last committed state and the state pending
inside the currently open transaction. -/
structure Conn where
  committed : DB
  pending : DB
deriving DecidableEq, Repr

/-- `connection.commit()`. -/
def Conn.commit (c : Conn) : Conn := ⟨c.pending, c.pending⟩

/-- `connection.rollback()`: discards everything pending. -/
def Conn.rollback (c : Conn) : Conn := ⟨c.committed, c.committed⟩

/-- `INSERT INTO snapshot ... ON CONFLICT (timestamp_capture) DO UPDATE SET
timestamp_capture = EXCLUDED.timestamp_capture RETURNING snapshot_id`: if
the timestamp exists the row is rewritten with the same value (so the table
is unchanged) and its id returned; otherwise a fresh id is allocated. -/
def insertSnapshotGetId (db : DB) (ts : DateTime) : DB × Nat :=
  match db.snapshot.find? (fun r => r.2 = ts) with
  | some r => (db, r.1)
  | none =>
    ({ db with snapshot := db.snapshot ++ [(db.next_id, ts)],
               next_id := db.next_id + 1 },
     db.next_id)

/-- `INSERT ... ON CONFLICT (key) DO NOTHING` for one row: the row is
appended only when no existing row has the same key. -/
def insertIfAbsent {ρ κ : Type} [DecidableEq κ] (key : ρ → κ)
    (tbl : List ρ) (r : ρ) : List ρ :=
  if tbl.any (fun s => key s = key r) then tbl else tbl ++ [r]

/-- One row of `INSERT INTO station ... ON CONFLICT (station_code) DO
NOTHING`. -/
def insertStation1 (db : DB) (r : StationRow) : DB :=
  { db with station := insertIfAbsent (fun s => s.station_code) db.station r }

/-- One row of `INSERT INTO velo ... ON CONFLICT (velo_name) DO NOTHING`. -/
def insertVelo1 (db : DB) (r : VeloRow) : DB :=
  { db with velo := insertIfAbsent (fun s => s.velo_name) db.velo r }

/-- One row of `INSERT INTO etat_station ... ON CONFLICT DO NOTHING`.
Modelled from the spec: the DDL is not part of the repository sources; per
the data model, `etat_station` has one row per station per snapshot, so the
conflict target is the key `(snapshot_id, station_code)`. -/
def insertEtat1 (db : DB) (r : EtatRow) : DB :=
  { db with etat_station :=
      insertIfAbsent (fun s => (s.snapshot_id, s.station_code)) db.etat_station r }

/-- One row of `INSERT INTO localisation_velo ... ON CONFLICT DO NOTHING`.
Modelled from the spec: the DDL is not part of the repository sources; per
the data model, `localisation_velo` has one row per bike observation per
snapshot, so the conflict target is the key `(snapshot_id, velo_name)`. -/
def insertLoc1 (db : DB) (r : LocRow) : DB :=
  { db with localisation_velo :=
      insertIfAbsent (fun s => (s.snapshot_id, s.velo_name)) db.localisation_velo r }

/-! ## Fault injection for the batch writer

`execute_values` can raise at any point; when it does, a prefix of the
batch may already have been applied to the pending transaction state.
`BatchOutcome.failAfter k` models an exception raised after `k` rows. -/

/-- Outcome of one `execute_values` call. -/
inductive BatchOutcome where
  | ok : BatchOutcome
  | failAfter (k : Nat) : BatchOutcome
deriving DecidableEq, Repr

/-- Does this outcome model a raised exception? -/
def BatchOutcome.isFail : BatchOutcome → Bool
  | .ok => false
  | .failAfter _ => true

/-- Injected database faults for one file's processing. -/
structure Faults where
  snapshotFail : Bool
  stationOutcome : BatchOutcome
  veloOutcome : BatchOutcome
  etatOutcome : BatchOutcome
  locOutcome : BatchOutcome
deriving DecidableEq, Repr

/-- No injected faults: every statement succeeds. -/
def noFaults : Faults := ⟨false, .ok, .ok, .ok, .ok⟩

/-- One guarded `if buffer: execute_values(...)` call: an empty buffer
issues no SQL (so it cannot raise); otherwise the batch is applied row by
row, and on `failAfter k` the exception surfaces with only the first `k`
rows applied to the pending state. -/
def runBatch {α : Type} (ins : DB → α → DB) (rows : List α)
    (out : BatchOutcome) (db : DB) : Except DB DB :=
  if rows.isEmpty then .ok db
  else
    match out with
    | .ok => .ok (rows.foldl ins db)
    | .failAfter k => .error ((rows.take k).foldl ins db)

/-- The four batch inserts of `process_file_content`, in source order;
an exception in any of them aborts the rest. -/
def runAllBatches (faults : Faults) (sb : List StationRow) (vb : List VeloRow)
    (eb : List EtatRow) (lb : List LocRow) (db : DB) : Except DB DB :=
  match runBatch insertStation1 sb faults.stationOutcome db with
  | .error d => .error d
  | .ok db1 =>
    match runBatch insertVelo1 vb faults.veloOutcome db1 with
    | .error d => .error d
    | .ok db2 =>
      match runBatch insertEtat1 eb faults.etatOutcome db2 with
      | .error d => .error d
      | .ok db3 =>
        match runBatch insertLoc1 lb faults.locOutcome db3 with
        | .error d => .error d
        | .ok db4 => .ok db4

/-! ## Fact extractor (the buffering loop of `process_file_content`) -/

/-- The four record buffers built for one file. -/
structure Batches where
  station_buffer : List StationRow
  velo_buffer : List VeloRow
  etat_station_buffer : List EtatRow
  localisation_velo_buffer : List LocRow
deriving DecidableEq, Repr

/-- `for x in j`: arrays yield their elements, strings their characters,
dicts their keys; other values raise `TypeError`. -/
def pyIterList (j : Json) : Except Unit (List Json) :=
  match j with
  | .arr xs => .ok xs
  | .str s => .ok (s.data.map (fun c => Json.str (String.singleton c)))
  | .obj fs => .ok (fs.map (fun p => Json.str p.1))
  | _ => .error ()

/-- The inner `for bike in station_data.get('bikes', [])` loop body:
skips bikes without a truthy `bikeName`, otherwise appends one `velo`
row and one `localisation_velo` row. -/
def processBike (sid : Nat) (station_code : Json)
    (acc : List VeloRow × List LocRow) (bike : Json) :
    Except Unit (List VeloRow × List LocRow) := do
  let velo_name ← pyGet bike "bikeName" .null
  if velo_name.truthy = false then
    return acc
  let electric ← pyGet bike "bikeElectric" .null
  let status ← pyGet bike "bikeStatus" .null
  let dock ← pyGet bike "dockPosition" .null
  return (acc.1 ++ [⟨velo_name, electric⟩],
          acc.2 ++ [⟨sid, velo_name, station_code, status, dock⟩])

/-- The outer `for station_data in data` loop body: skips observations
without a truthy station code, otherwise appends one `station` row, one
`etat_station` row, and the rows of every named bike.  Any attribute
access on a non-dict raises. -/
def processStationData (sid : Nat) (acc : Batches) (station_data : Json) :
    Except Unit Batches := do
  let station_info ← pyGet station_data "station" (.obj [])
  let station_code ← pyGet station_info "code" .null
  if station_code.truthy = false then
    return acc
  let name ← pyGet station_info "name" .null
  let gps ← pyGet station_info "gps" (.obj [])
  let latitude ← pyGet gps "latitude" .null
  let longitude ← pyGet gps "longitude" .null
  let stationtype ← pyGet station_info "stationType" .null
  let ty ← pyGet station_info "type" .null
  let state ← pyGet station_data "state" .null
  let nbbike ← pyGet station_data "nbBike" .null
  let nbebike ← pyGet station_data "nbEbike" .null
  let nbfreedock ← pyGet station_data "nbFreeDock" .null
  let bikes ← pyGet station_data "bikes" (.arr [])
  let bikeList ← pyIterList bikes
  let (vb, lb) ← bikeList.foldlM (processBike sid station_code) ([], [])
  return { station_buffer :=
             acc.station_buffer ++ [⟨station_code, name, latitude, longitude, stationtype, ty⟩],
           velo_buffer := acc.velo_buffer ++ vb,
           etat_station_buffer :=
             acc.etat_station_buffer ++ [⟨sid, station_code, state, nbbike, nbebike, nbfreedock⟩],
           localisation_velo_buffer := acc.localisation_velo_buffer ++ lb }

/-- The full buffering loop over the decoded snapshot list. -/
def extractBatches (sid : Nat) (data : List Json) : Except Unit Batches :=
  data.foldlM (processStationData sid) ⟨[], [], [], []⟩

/-- Does at least one of the four `execute_values` calls raise?  A call is
made only when its buffer is non-empty. -/
def batchFailing (faults : Faults) (b : Batches) : Bool :=
  (!b.station_buffer.isEmpty && faults.stationOutcome.isFail) ||
  (!b.velo_buffer.isEmpty && faults.veloOutcome.isFail) ||
  (!b.etat_station_buffer.isEmpty && faults.etatOutcome.isFail) ||
  (!b.localisation_velo_buffer.isEmpty && faults.locOutcome.isFail)

/-! ## `process_file_content` -/

/-- The three cumulative error counters of the driver. -/
structure Errors where
  invalid_format : Nat
  snapshot_error : Nat
  generic_error : Nat
deriving DecidableEq, Repr

/-- `process_file_content(filename, content, timestamp, cursor, errors)`.

The file content is the result of `json.loads`: `none` models content that
is not valid JSON (the call raises `json.JSONDecodeError`), `some v` the
decoded value.  The function first upserts the snapshot row (a failure
there rolls back and counts `snapshot_error`), then parses: invalid JSON
or a buffering/batch exception rolls the transaction back and counts
`generic_error`; valid JSON that is not a list counts `invalid_format`
and returns with the snapshot upsert still pending (neither committed nor
rolled back); otherwise the four batches are inserted and committed. -/
def process_file_content (faults : Faults) (content : Option Json)
    (timestamp : DateTime) (conn : Conn) (errors : Errors) : Conn × Errors :=
  if faults.snapshotFail then
    (conn.rollback, { errors with snapshot_error := errors.snapshot_error + 1 })
  else
    let p := insertSnapshotGetId conn.pending timestamp
    let conn1 : Conn := { conn with pending := p.1 }
    match content with
    | none =>
      (conn1.rollback, { errors with generic_error := errors.generic_error + 1 })
    | some data =>
      match data with
      | .arr items =>
        match extractBatches p.2 items with
        | .error _ =>
          (conn1.rollback, { errors with generic_error := errors.generic_error + 1 })
        | .ok b =>
          match runAllBatches faults b.station_buffer b.velo_buffer
              b.etat_station_buffer b.localisation_velo_buffer conn1.pending with
          | .error _ =>
            (conn1.rollback, { errors with generic_error := errors.generic_error + 1 })
          | .ok db2 =>
            (Conn.commit { conn1 with pending := db2 }, errors)
      | _ =>
        (conn1, { errors with invalid_format := errors.invalid_format + 1 })

/-! ## Progress store -/

/-- Python's `str.endswith(suffix)`: the last characters equal the
suffix. -/
def strEndsWith (s suffix : String) : Bool :=
  s.data.drop (s.data.length - suffix.data.length) == suffix.data

/-- Is the filename a candidate input file (`endswith(('.json', '.gz'))`)? -/
def isCandidate (f : String) : Bool :=
  strEndsWith f ".json" || strEndsWith f ".gz"

/-- `rebuild_progress_from_database`: read all `timestamp_capture` values
from the `snapshot` table, list the candidate files of the data folder, and
keep exactly those whose parsed filename timestamp is among them.  A file
whose name does not parse yields `None`, which never equals a stored
timestamp (`timestamp_capture` is the non-null unique key per the data
model), so such files are not marked done. -/
def rebuild_progress_from_database (db : DB) (dirFiles : List String) :
    List String :=
  let existing := db.snapshot.map (fun r => r.2)
  let all_files := dirFiles.filter isCandidate
  all_files.filter (fun f =>
    match parse_timestamp_from_filename f with
    | some t => existing.contains t
    | none => false)

/-- State of the progress file on disk when the run starts: absent, or
present with the result of parsing its content (`none` models an empty
file or invalid JSON, both of which the bare `except` turns into a
rebuild). -/
inductive ProgressFile where
  | missing : ProgressFile
  | present (parsed : Option Json) : ProgressFile

/-- `load_progress()`: returns the parsed JSON value of the progress file
unchanged — whatever its shape — and falls back to
`rebuild_progress_from_database` only when the file is missing, empty or
not valid JSON. -/
def load_progress (pf : ProgressFile) (db : DB) (dirFiles : List String) :
    Json :=
  match pf with
  | .present (some v) => v
  | _ =>
    Json.obj [("done",
      Json.arr ((rebuild_progress_from_database db dirFiles).map Json.str))]

/-- Collect the elements of `progress["done"]` for `set(...)`: an element
that is a list or dict is unhashable and raises `TypeError`; a hashable
non-string element can never compare equal to a filename, so only the
strings are kept. -/
def doneEntries : List Json → Except Unit (List String)
  | [] => .ok []
  | Json.str s :: rest => do
    let r ← doneEntries rest
    return s :: r
  | Json.arr _ :: _ => .error ()
  | Json.obj _ :: _ => .error ()
  | _ :: rest => doneEntries rest

/-- `set(progress["done"])` in the driver: raises unless `progress` is an
object carrying a `"done"` list (subscripting anything else with the
string key, a missing key, or an unusable `"done"` value raises
`TypeError`/`KeyError`, uncaught — for non-list `"done"` values the run
fails at this statement or at the first `progress["done"].append`, which
this model collapses into one immediate error). -/
def getDone (progress : Json) : Except Unit (List String) :=
  match progress with
  | .obj fs =>
    match fs.lookup "done" with
    | some (Json.arr xs) => doneEntries xs
    | _ => .error ()
  | _ => .error ()

/-- The JSON value `{"done": [...]}` written by `save_progress`. -/
def progressJson (done : List String) : Json :=
  Json.obj [("done", Json.arr (done.map Json.str))]

/-! ## Pipeline driver (`import_data_from_folder`) -/

/-- The run environment: the data-folder listing in discovery order, the
result of reading and `json.loads`-decoding each file (`.error` models an
exception while opening/reading/decompressing the file, caught by the
per-file handler before any decoding), the injected database faults per
file, and whether `save_progress` raises after a given file. -/
structure Env where
  files : List String
  content : String → Except Unit (Option Json)
  faults : String → Faults
  saveFails : String → Bool

/-- Loop state of the driver: the shared connection, the in-memory
`progress["done"]` list, the done-list most recently persisted by a
successful `save_progress`, and the error counters. -/
structure LoopState where
  conn : Conn
  doneList : List String
  persisted : List String
  errors : Errors

/-- One iteration of the driver's file loop.  `.error ()` models an
exception that escapes `import_data_from_folder`: the only such statement
is the `save_progress` call in the unparsable-timestamp branch, which sits
outside any `try`.  In the normal branch the whole read / process / mark /
save sequence is inside one `try`, so a read failure is caught *before*
the file is marked done, and a `save_progress` failure is caught *after*
the in-memory mark but leaves the persisted record unchanged. -/
def processOne (env : Env) (st : LoopState) (f : String) :
    Except Unit LoopState :=
  match parse_timestamp_from_filename f with
  | none =>
    let errors1 : Errors :=
      { st.errors with generic_error := st.errors.generic_error + 1 }
    let done1 := st.doneList ++ [f]
    if env.saveFails f then .error ()
    else .ok { st with errors := errors1, doneList := done1, persisted := done1 }
  | some timestamp =>
    match env.content f with
    | .error _ =>
      .ok { st with errors :=
        { st.errors with generic_error := st.errors.generic_error + 1 } }
    | .ok content =>
      let r := process_file_content (env.faults f) content timestamp st.conn st.errors
      let done1 := st.doneList ++ [f]
      if env.saveFails f then
        .ok { conn := r.1, doneList := done1, persisted := st.persisted,
              errors := { r.2 with generic_error := r.2.generic_error + 1 } }
      else
        .ok { conn := r.1, doneList := done1, persisted := done1, errors := r.2 }

/-- Result of a completed run: the committed relational state after the
connection is closed (closing discards any still-pending writes), the
in-memory and persisted done-lists, and the counters. -/
structure RunResult where
  db : DB
  doneList : List String
  persisted : List String
  errors : Errors
deriving Repr

/-- `import_data_from_folder(data_folder)`: load (or rebuild) the progress
record, evaluate `set(progress["done"])` (an uncaught error here aborts
the run), list candidate files, skip the done ones, and run the per-file
loop over the remaining files in discovery order. -/
def import_data_from_folder (env : Env) (pf : ProgressFile) (db0 : DB) :
    Except Unit RunResult :=
  match getDone (load_progress pf db0 env.files) with
  | .error _ => .error ()
  | .ok done0 =>
    match ((env.files.filter isCandidate).filter
        (fun f => !done0.contains f)).foldlM (processOne env)
        ⟨⟨db0, db0⟩, done0, done0, ⟨0, 0, 0⟩⟩ with
    | .error _ => .error ()
    | .ok st =>
      .ok { db := st.conn.committed, doneList := st.doneList,
            persisted := st.persisted, errors := st.errors }

/-! ## Helper lemmas about the batch writer -/

theorem mem_insertIfAbsent {ρ κ : Type} [DecidableEq κ] (key : ρ → κ)
    (tbl : List ρ) (a : ρ) {x : ρ} (hx : x ∈ tbl) :
    x ∈ insertIfAbsent key tbl a := by
  unfold insertIfAbsent
  split
  · exact hx
  · exact List.mem_append_left _ hx

theorem insertIfAbsent_foldl_extends {ρ κ : Type} [DecidableEq κ] (key : ρ → κ)
    (rows : List ρ) (tbl : List ρ) :
    ∃ suf, rows.foldl (insertIfAbsent key) tbl = tbl ++ suf ∧
      ∀ r ∈ suf, ∀ r0 ∈ tbl, key r ≠ key r0 := by
  induction rows generalizing tbl with
  | nil => exact ⟨[], by simp, by simp⟩
  | cons r rows ih =>
    by_cases hAny : tbl.any (fun s => key s = key r) = true
    · rw [List.foldl_cons, insertIfAbsent, if_pos hAny]
      exact ih tbl
    · rw [List.foldl_cons, insertIfAbsent, if_neg hAny]
      obtain ⟨suf, hsuf, hfresh⟩ := ih (tbl ++ [r])
      refine ⟨r :: suf, by rw [hsuf, List.append_assoc]; rfl, ?_⟩
      intro x hx r0 hr0
      rcases List.mem_cons.mp hx with rfl | hxs
      · simp only [List.any_eq_true, decide_eq_true_eq, not_exists, not_and] at hAny
        exact fun hk => hAny r0 hr0 hk.symm
      · exact hfresh x hxs r0 (List.mem_append_left _ hr0)

theorem insertIfAbsent_foldl_covers {ρ κ : Type} [DecidableEq κ] (key : ρ → κ)
    (rows : List ρ) (tbl : List ρ) (r : ρ)
    (h : r ∈ rows ∨ ∃ x ∈ tbl, key x = key r) :
    ∃ x ∈ rows.foldl (insertIfAbsent key) tbl, key x = key r := by
  induction rows generalizing tbl with
  | nil =>
    rcases h with h | ⟨x, hx, hk⟩
    · exact absurd h (List.not_mem_nil r)
    · exact ⟨x, hx, hk⟩
  | cons a rows ih =>
    rw [List.foldl_cons]
    apply ih
    rcases h with h | ⟨x, hx, hk⟩
    · rcases List.mem_cons.mp h with rfl | hmem
      · right
        by_cases hAny : tbl.any (fun s => key s = key r) = true
        · obtain ⟨x, hx, hk⟩ :=
            (by simpa only [List.any_eq_true, decide_eq_true_eq] using hAny :
              ∃ x ∈ tbl, key x = key r)
          exact ⟨x, mem_insertIfAbsent key tbl r hx, hk⟩
        · refine ⟨r, ?_, rfl⟩
          rw [insertIfAbsent, if_neg hAny]
          exact List.mem_append_right _ (List.mem_singleton.mpr rfl)
      · left; exact hmem
    · right; exact ⟨x, mem_insertIfAbsent key tbl a hx, hk⟩

theorem foldl_insertStation1_station (rows : List StationRow) (db : DB) :
    (rows.foldl insertStation1 db).station =
      rows.foldl (insertIfAbsent (fun s => s.station_code)) db.station := by
  induction rows generalizing db with
  | nil => rfl
  | cons r rows ih => rw [List.foldl_cons, List.foldl_cons, ih]; rfl

theorem foldl_insertStation1_velo (rows : List StationRow) (db : DB) :
    (rows.foldl insertStation1 db).velo = db.velo := by
  induction rows generalizing db with
  | nil => rfl
  | cons r rows ih => rw [List.foldl_cons, ih]; rfl

theorem foldl_insertStation1_etat (rows : List StationRow) (db : DB) :
    (rows.foldl insertStation1 db).etat_station = db.etat_station := by
  induction rows generalizing db with
  | nil => rfl
  | cons r rows ih => rw [List.foldl_cons, ih]; rfl

theorem foldl_insertStation1_loc (rows : List StationRow) (db : DB) :
    (rows.foldl insertStation1 db).localisation_velo = db.localisation_velo := by
  induction rows generalizing db with
  | nil => rfl
  | cons r rows ih => rw [List.foldl_cons, ih]; rfl

theorem foldl_insertVelo1_velo (rows : List VeloRow) (db : DB) :
    (rows.foldl insertVelo1 db).velo =
      rows.foldl (insertIfAbsent (fun s => s.velo_name)) db.velo := by
  induction rows generalizing db with
  | nil => rfl
  | cons r rows ih => rw [List.foldl_cons, List.foldl_cons, ih]; rfl

theorem foldl_insertVelo1_station (rows : List VeloRow) (db : DB) :
    (rows.foldl insertVelo1 db).station = db.station := by
  induction rows generalizing db with
  | nil => rfl
  | cons r rows ih => rw [List.foldl_cons, ih]; rfl

theorem foldl_insertVelo1_etat (rows : List VeloRow) (db : DB) :
    (rows.foldl insertVelo1 db).etat_station = db.etat_station := by
  induction rows generalizing db with
  | nil => rfl
  | cons r rows ih => rw [List.foldl_cons, ih]; rfl

theorem foldl_insertVelo1_loc (rows : List VeloRow) (db : DB) :
    (rows.foldl insertVelo1 db).localisation_velo = db.localisation_velo := by
  induction rows generalizing db with
  | nil => rfl
  | cons r rows ih => rw [List.foldl_cons, ih]; rfl

theorem foldl_insertEtat1_etat (rows : List EtatRow) (db : DB) :
    (rows.foldl insertEtat1 db).etat_station =
      rows.foldl (insertIfAbsent (fun s => (s.snapshot_id, s.station_code)))
        db.etat_station := by
  induction rows generalizing db with
  | nil => rfl
  | cons r rows ih => rw [List.foldl_cons, List.foldl_cons, ih]; rfl

theorem foldl_insertEtat1_station (rows : List EtatRow) (db : DB) :
    (rows.foldl insertEtat1 db).station = db.station := by
  induction rows generalizing db with
  | nil => rfl
  | cons r rows ih => rw [List.foldl_cons, ih]; rfl

theorem foldl_insertEtat1_velo (rows : List EtatRow) (db : DB) :
    (rows.foldl insertEtat1 db).velo = db.velo := by
  induction rows generalizing db with
  | nil => rfl
  | cons r rows ih => rw [List.foldl_cons, ih]; rfl

theorem foldl_insertEtat1_loc (rows : List EtatRow) (db : DB) :
    (rows.foldl insertEtat1 db).localisation_velo = db.localisation_velo := by
  induction rows generalizing db with
  | nil => rfl
  | cons r rows ih => rw [List.foldl_cons, ih]; rfl

theorem foldl_insertLoc1_loc (rows : List LocRow) (db : DB) :
    (rows.foldl insertLoc1 db).localisation_velo =
      rows.foldl (insertIfAbsent (fun s => (s.snapshot_id, s.velo_name)))
        db.localisation_velo := by
  induction rows generalizing db with
  | nil => rfl
  | cons r rows ih => rw [List.foldl_cons, List.foldl_cons, ih]; rfl

theorem foldl_insertLoc1_station (rows : List LocRow) (db : DB) :
    (rows.foldl insertLoc1 db).station = db.station := by
  induction rows generalizing db with
  | nil => rfl
  | cons r rows ih => rw [List.foldl_cons, ih]; rfl

theorem foldl_insertLoc1_velo (rows : List LocRow) (db : DB) :
    (rows.foldl insertLoc1 db).velo = db.velo := by
  induction rows generalizing db with
  | nil => rfl
  | cons r rows ih => rw [List.foldl_cons, ih]; rfl

theorem foldl_insertLoc1_etat (rows : List LocRow) (db : DB) :
    (rows.foldl insertLoc1 db).etat_station = db.etat_station := by
  induction rows generalizing db with
  | nil => rfl
  | cons r rows ih => rw [List.foldl_cons, ih]; rfl

theorem insertSnapshotGetId_station (db : DB) (ts : DateTime) :
    ((insertSnapshotGetId db ts).1).station = db.station := by
  unfold insertSnapshotGetId
  cases db.snapshot.find? (fun r => r.2 = ts) <;> rfl

theorem insertSnapshotGetId_velo (db : DB) (ts : DateTime) :
    ((insertSnapshotGetId db ts).1).velo = db.velo := by
  unfold insertSnapshotGetId
  cases db.snapshot.find? (fun r => r.2 = ts) <;> rfl

theorem insertSnapshotGetId_etat (db : DB) (ts : DateTime) :
    ((insertSnapshotGetId db ts).1).etat_station = db.etat_station := by
  unfold insertSnapshotGetId
  cases db.snapshot.find? (fun r => r.2 = ts) <;> rfl

theorem insertSnapshotGetId_loc (db : DB) (ts : DateTime) :
    ((insertSnapshotGetId db ts).1).localisation_velo = db.localisation_velo := by
  unfold insertSnapshotGetId
  cases db.snapshot.find? (fun r => r.2 = ts) <;> rfl

theorem runBatch_ok {α : Type} (ins : DB → α → DB) (rows : List α)
    (out : BatchOutcome) (db : DB) (h : out = .ok ∨ rows.isEmpty = true) :
    runBatch ins rows out db = .ok (rows.foldl ins db) := by
  rcases h with rfl | h
  · by_cases he : rows.isEmpty = true
    · rw [List.isEmpty_iff.mp he]; rfl
    · rw [runBatch, if_neg he]
  · rw [List.isEmpty_iff.mp h]; rfl

theorem runBatch_fail {α : Type} (ins : DB → α → DB) (rows : List α)
    (out : BatchOutcome) (db : DB)
    (hne : rows.isEmpty = false) (hf : out.isFail = true) :
    ∃ d, runBatch ins rows out db = .error d := by
  cases out with
  | ok => simp [BatchOutcome.isFail] at hf
  | failAfter k =>
    exact ⟨_, by rw [runBatch, if_neg (by simp [hne])]⟩

theorem batch_stage_fail {α : Type} (ins : DB → α → DB) (rows : List α)
    (out : BatchOutcome) (db : DB)
    (h : (!rows.isEmpty && out.isFail) = true) :
    ∃ d, runBatch ins rows out db = .error d := by
  obtain ⟨h1, h2⟩ := Bool.and_eq_true_iff.mp h
  exact runBatch_fail ins rows out db (by simpa using h1) h2

theorem runAllBatches_ok (faults : Faults) (sb : List StationRow)
    (vb : List VeloRow) (eb : List EtatRow) (lb : List LocRow) (db : DB)
    (hs : faults.stationOutcome = .ok ∨ sb.isEmpty = true)
    (hv : faults.veloOutcome = .ok ∨ vb.isEmpty = true)
    (he : faults.etatOutcome = .ok ∨ eb.isEmpty = true)
    (hl : faults.locOutcome = .ok ∨ lb.isEmpty = true) :
    runAllBatches faults sb vb eb lb db =
      .ok (lb.foldl insertLoc1 (eb.foldl insertEtat1
        (vb.foldl insertVelo1 (sb.foldl insertStation1 db)))) := by
  simp only [runAllBatches, runBatch_ok _ _ _ _ hs, runBatch_ok _ _ _ _ hv,
    runBatch_ok _ _ _ _ he, runBatch_ok _ _ _ _ hl]

theorem runAllBatches_fail (faults : Faults) (b : Batches) (db : DB)
    (hf : batchFailing faults b = true) :
    ∃ d, runAllBatches faults b.station_buffer b.velo_buffer
        b.etat_station_buffer b.localisation_velo_buffer db = .error d := by
  cases hr1 : runBatch insertStation1 b.station_buffer faults.stationOutcome db with
  | error d => exact ⟨d, by simp only [runAllBatches, hr1]⟩
  | ok db1 =>
    cases hr2 : runBatch insertVelo1 b.velo_buffer faults.veloOutcome db1 with
    | error d => exact ⟨d, by simp only [runAllBatches, hr1, hr2]⟩
    | ok db2 =>
      cases hr3 : runBatch insertEtat1 b.etat_station_buffer faults.etatOutcome db2 with
      | error d => exact ⟨d, by simp only [runAllBatches, hr1, hr2, hr3]⟩
      | ok db3 =>
        cases hr4 : runBatch insertLoc1 b.localisation_velo_buffer faults.locOutcome db3 with
        | error d => exact ⟨d, by simp only [runAllBatches, hr1, hr2, hr3, hr4]⟩
        | ok db4 =>
          exfalso
          rw [batchFailing] at hf
          rcases Bool.or_eq_true_iff.mp hf with hf | h
          · rcases Bool.or_eq_true_iff.mp hf with hf | h
            · rcases Bool.or_eq_true_iff.mp hf with h | h
              · obtain ⟨d, hd⟩ := batch_stage_fail insertStation1 _ _ db h
                rw [hr1] at hd; exact Except.noConfusion hd
              · obtain ⟨d, hd⟩ := batch_stage_fail insertVelo1 _ _ db1 h
                rw [hr2] at hd; exact Except.noConfusion hd
            · obtain ⟨d, hd⟩ := batch_stage_fail insertEtat1 _ _ db2 h
              rw [hr3] at hd; exact Except.noConfusion hd
          · obtain ⟨d, hd⟩ := batch_stage_fail insertLoc1 _ _ db3 h
            rw [hr4] at hd; exact Except.noConfusion hd

/-- C2: all-or-nothing per file — for every file whose batch insertion
raises an exception at any point (any of the four `execute_values` calls,
including one that fails mid-way through the `localisation_velo` batch),
`process_file_content` rolls the whole transaction back, so none of the
file's snapshot, station, velo, etat_station or localisation_velo rows are
committed, and `generic_error` is incremented by exactly one. -/
theorem process_batch_failure_rolls_back (faults : Faults) (items : List Json)
    (ts : DateTime) (conn : Conn) (errors : Errors) (b : Batches)
    (hs : faults.snapshotFail = false)
    (hx : extractBatches (insertSnapshotGetId conn.pending ts).2 items = .ok b)
    (hf : batchFailing faults b = true) :
    process_file_content faults (some (Json.arr items)) ts conn errors =
      (⟨conn.committed, conn.committed⟩,
       { errors with generic_error := errors.generic_error + 1 }) := by
  obtain ⟨d, hd⟩ := runAllBatches_fail faults b
    ((insertSnapshotGetId conn.pending ts).1) hf
  simp [process_file_content, hs, hx, hd, Conn.rollback]

/-- A station observation with one station and two named bikes, used to
exercise a failure after the first `localisation_velo` row. -/
def obsC2w : Json := Json.obj
  [("station", Json.obj [("code", Json.str "S1")]),
   ("bikes", Json.arr [Json.obj [("bikeName", Json.str "B1")],
                       Json.obj [("bikeName", Json.str "B2")]])]

/-- Faults making the `localisation_velo` batch raise after one row. -/
def faultsC2w : Faults := ⟨false, .ok, .ok, .ok, .failAfter 1⟩

/-- The batches extracted from `[obsC2w]` with snapshot id 0. -/
def bC2w : Batches :=
  { station_buffer :=
      [⟨Json.str "S1", Json.null, Json.null, Json.null, Json.null, Json.null⟩],
    velo_buffer := [⟨Json.str "B1", Json.null⟩, ⟨Json.str "B2", Json.null⟩],
    etat_station_buffer :=
      [⟨0, Json.str "S1", Json.null, Json.null, Json.null, Json.null⟩],
    localisation_velo_buffer :=
      [⟨0, Json.str "B1", Json.str "S1", Json.null, Json.null⟩,
       ⟨0, Json.str "B2", Json.str "S1", Json.null, Json.null⟩] }

/-- Witness for `process_batch_failure_rolls_back`: a concrete file whose
`localisation_velo` batch of two rows fails after the first row; nothing is
committed and `generic_error` rises from 0 to 1. -/
theorem process_batch_failure_rolls_back_witness :
    faultsC2w.snapshotFail = false ∧
    extractBatches (insertSnapshotGetId emptyDB ⟨2024, 1, 1, 8, 0, 0⟩).2 [obsC2w] =
      .ok bC2w ∧
    batchFailing faultsC2w bC2w = true ∧
    process_file_content faultsC2w (some (Json.arr [obsC2w])) ⟨2024, 1, 1, 8, 0, 0⟩
        ⟨emptyDB, emptyDB⟩ ⟨0, 0, 0⟩ =
      (⟨emptyDB, emptyDB⟩, ⟨0, 0, 1⟩) :=
  ⟨rfl, rfl, rfl,
   process_batch_failure_rolls_back faultsC2w [obsC2w] ⟨2024, 1, 1, 8, 0, 0⟩
     ⟨emptyDB, emptyDB⟩ ⟨0, 0, 0⟩ bC2w rfl rfl rfl⟩

/-- C7 counterexample: a file with invalid JSON syntax increments
`generic_error` (1, 0 for `invalid_format`) while a file whose content is a
JSON object increments `invalid_format` — the two decode failures do NOT
increment the same error counter. -/
theorem decode_error_classes_not_merged :
    (process_file_content noFaults none ⟨2024, 1, 1, 8, 0, 0⟩
        ⟨emptyDB, emptyDB⟩ ⟨0, 0, 0⟩).2 = ⟨0, 0, 1⟩ ∧
    (process_file_content noFaults (some (Json.obj [])) ⟨2024, 1, 1, 8, 0, 0⟩
        ⟨emptyDB, emptyDB⟩ ⟨0, 0, 0⟩).2 = ⟨1, 0, 0⟩ ∧
    (⟨0, 0, 1⟩ : Errors) ≠ ⟨1, 0, 0⟩ :=
  ⟨rfl, rfl, by decide⟩

/-- C7 (amended): the two decode failures are counted in distinct classes —
content that is not valid JSON raises inside the `try` and increments
`generic_error`, while valid JSON that is not a list at the top level
increments `invalid_format`. -/
theorem decode_error_two_classes (ts : DateTime) (conn : Conn) (errors : Errors)
    (d : Json) (hd : d.isArr = false) :
    (process_file_content noFaults none ts conn errors).2 =
      { errors with generic_error := errors.generic_error + 1 } ∧
    (process_file_content noFaults (some d) ts conn errors).2 =
      { errors with invalid_format := errors.invalid_format + 1 } := by
  constructor
  · rfl
  · cases d <;> simp_all [process_file_content, Json.isArr, noFaults]

/-- Witness for `decode_error_two_classes` at the JSON object `{}`. -/
theorem decode_error_two_classes_witness :
    (Json.obj []).isArr = false ∧
    ((process_file_content noFaults none ⟨2024, 2, 2, 9, 0, 0⟩
        ⟨emptyDB, emptyDB⟩ ⟨3, 4, 5⟩).2 = ⟨3, 4, 6⟩ ∧
     (process_file_content noFaults (some (Json.obj [])) ⟨2024, 2, 2, 9, 0, 0⟩
        ⟨emptyDB, emptyDB⟩ ⟨3, 4, 5⟩).2 = ⟨4, 4, 5⟩) :=
  ⟨rfl, decode_error_two_classes ⟨2024, 2, 2, 9, 0, 0⟩ ⟨emptyDB, emptyDB⟩
    ⟨3, 4, 5⟩ (Json.obj []) rfl⟩

/-- C4: the filename timestamp parser returns `None` on the spec's own
canonical example `velib_20240101_080000.json` instead of the embedded
2024-01-01T08:00:00 — the third underscore token keeps the `.json`
extension, so `strptime` fails with "unconverted data remains"; the same
timestamp string parses fine without the attached extension (second
conjunct), which isolates the slip. -/
theorem parse_timestamp_example_returns_none :
    parse_timestamp_from_filename "velib_20240101_080000.json" = none ∧
    strptimeYmdHMS "20240101_080000" = some ⟨2024, 1, 1, 8, 0, 0⟩ := by
  constructor <;> rfl

/-- C10: `load_progress` returns the parsed JSON value of the progress
file unchanged, without validating its shape; `import_data_from_folder`
then raises an uncaught error when evaluating `progress["done"]` on a JSON
list or on an object lacking the `"done"` key, aborting the whole run
instead of falling back to reconstruction. -/
theorem load_progress_shape_unvalidated (v : Json) (db : DB)
    (dirFiles : List String) (env : Env) (db0 : DB) :
    load_progress (.present (some v)) db dirFiles = v ∧
    import_data_from_folder env (.present (some (Json.arr []))) db0 = .error () ∧
    import_data_from_folder env
      (.present (some (Json.obj [("version", Json.num 1)]))) db0 = .error () := by
  refine ⟨rfl, ?_, ?_⟩ <;> rfl

/-- First file of the C3 scenario: valid JSON, but an object. -/
def fC3a : String := "velib_20240101_080000_snap.json"

/-- Second file of the C3 scenario: a valid empty snapshot list. -/
def fC3b : String := "velib_20240101_080500_snap.json"

/-- A directory with an invalid-format file followed by a valid one. -/
def envC3 : Env :=
  { files := [fC3a, fC3b],
    content := fun f =>
      if f = fC3a then .ok (some (Json.obj [])) else .ok (some (Json.arr [])),
    faults := fun _ => noFaults,
    saveFails := fun _ => false }

/-- C3 counterexample: the invalid-format file `fC3a` is counted under
`invalid_format` and marked done and none of its fact rows are written,
but the snapshot row inserted for its timestamp before format validation
is left pending on the shared connection and IS committed as a side effect
of the next file's commit: after the run, the committed `snapshot` table
contains the row `(0, 2024-01-01T08:00:00)` carrying `fC3a`'s timestamp. -/
theorem invalid_format_snapshot_committed_by_later_file :
    (import_data_from_folder envC3 .missing emptyDB).map
      (fun r => (r.db.snapshot.contains (0, ⟨2024, 1, 1, 8, 0, 0⟩),
                 r.errors.invalid_format,
                 r.doneList.contains fC3a,
                 r.db.station.isEmpty && r.db.velo.isEmpty &&
                   r.db.etat_station.isEmpty && r.db.localisation_velo.isEmpty)) =
      .ok (true, 1, true, true) := rfl

/-- C3 (amended): a file whose content is valid JSON but not a list is
counted under `invalid_format`, appended to the done-set with the progress
persisted, and writes no station, velo, etat_station or localisation_velo
rows; however its processing leaves the snapshot upsert for the file's
timestamp pending (neither committed nor rolled back) on the shared
connection, where a later file's commit can persist it. -/
theorem invalid_format_counted_done_snapshot_pending
    (env : Env) (st : LoopState) (f : String) (d : Json) (ts : DateTime)
    (hp : parse_timestamp_from_filename f = some ts)
    (hc : env.content f = .ok (some d))
    (hd : d.isArr = false)
    (hsn : (env.faults f).snapshotFail = false)
    (hsv : env.saveFails f = false) :
    processOne env st f = .ok
      { conn := ⟨st.conn.committed, (insertSnapshotGetId st.conn.pending ts).1⟩,
        doneList := st.doneList ++ [f],
        persisted := st.doneList ++ [f],
        errors := { st.errors with invalid_format := st.errors.invalid_format + 1 } } ∧
    ((insertSnapshotGetId st.conn.pending ts).1).station = st.conn.pending.station ∧
    ((insertSnapshotGetId st.conn.pending ts).1).velo = st.conn.pending.velo ∧
    ((insertSnapshotGetId st.conn.pending ts).1).etat_station =
      st.conn.pending.etat_station ∧
    ((insertSnapshotGetId st.conn.pending ts).1).localisation_velo =
      st.conn.pending.localisation_velo := by
  refine ⟨?_, insertSnapshotGetId_station _ _, insertSnapshotGetId_velo _ _,
    insertSnapshotGetId_etat _ _, insertSnapshotGetId_loc _ _⟩
  have hpc : process_file_content (env.faults f) (some d) ts st.conn st.errors =
      (⟨st.conn.committed, (insertSnapshotGetId st.conn.pending ts).1⟩,
       { st.errors with invalid_format := st.errors.invalid_format + 1 }) := by
    cases d <;> simp_all [process_file_content, Json.isArr]
  simp [processOne, hp, hc, hpc, hsv]

/-- Witness for `invalid_format_counted_done_snapshot_pending` on a
one-file environment whose content is the JSON object `{}`. -/
theorem invalid_format_counted_done_witness :
    parse_timestamp_from_filename fC3a = some ⟨2024, 1, 1, 8, 0, 0⟩ ∧
    envC3.content fC3a = .ok (some (Json.obj [])) ∧
    (Json.obj []).isArr = false ∧
    (envC3.faults fC3a).snapshotFail = false ∧
    envC3.saveFails fC3a = false ∧
    processOne envC3 ⟨⟨emptyDB, emptyDB⟩, [], [], ⟨0, 0, 0⟩⟩ fC3a = .ok
      { conn := ⟨emptyDB, (insertSnapshotGetId emptyDB ⟨2024, 1, 1, 8, 0, 0⟩).1⟩,
        doneList := [fC3a], persisted := [fC3a], errors := ⟨1, 0, 0⟩ } :=
  ⟨rfl, rfl, rfl, rfl, rfl,
   (invalid_format_counted_done_snapshot_pending envC3
     ⟨⟨emptyDB, emptyDB⟩, [], [], ⟨0, 0, 0⟩⟩ fC3a (Json.obj [])
     ⟨2024, 1, 1, 8, 0, 0⟩ rfl rfl rfl rfl rfl).1⟩

/-- The C5 scenario: one candidate file whose read raises. -/
def envC5 : Env :=
  { files := ["velib_20240101_080000_snap.json"],
    content := fun _ => .error (),
    faults := fun _ => noFaults,
    saveFails := fun _ => false }

/-- C5 counterexample: a file whose read raises gets a terminal read-error
outcome (the `generic_error` counter rises to 1), yet the driver does NOT
append it to the done-set and persists nothing for it — both the in-memory
and the persisted done-lists stay empty, so the file will be retried on the
next run. -/
theorem read_error_not_marked_done :
    (import_data_from_folder envC5 .missing emptyDB).map
      (fun r => (r.doneList, r.persisted, r.errors)) = .ok ([], [], ⟨0, 0, 1⟩) := rfl

/-- C5 (amended): for a file whose timestamp fails to parse or whose read
succeeds — i.e. every terminal outcome except a read error — the driver
appends the filename to the done-set and persists the progress record
before moving on (provided `save_progress` itself does not raise). -/
theorem driver_marks_done_and_persists (env : Env) (st : LoopState) (f : String)
    (hsv : env.saveFails f = false)
    (h : parse_timestamp_from_filename f = none ∨ ∃ c, env.content f = .ok c) :
    ∃ st', processOne env st f = .ok st' ∧
      st'.doneList = st.doneList ++ [f] ∧ st'.persisted = st'.doneList := by
  cases hp : parse_timestamp_from_filename f with
  | none =>
    refine ⟨{ st with
              errors :=
                { st.errors with generic_error := st.errors.generic_error + 1 },
              doneList := st.doneList ++ [f],
              persisted := st.doneList ++ [f] },
      ?_, rfl, rfl⟩
    simp [processOne, hp, hsv]
  | some ts =>
    rcases h with hp' | ⟨c, hc⟩
    · rw [hp] at hp'; exact Option.noConfusion hp'
    · refine ⟨{ conn := (process_file_content (env.faults f) c ts st.conn st.errors).1,
                doneList := st.doneList ++ [f],
                persisted := st.doneList ++ [f],
                errors := (process_file_content (env.faults f) c ts st.conn st.errors).2 },
        ?_, rfl, rfl⟩
      simp [processOne, hp, hc, hsv]

/-- Witness for `driver_marks_done_and_persists` at a file with an
unparsable name. -/
theorem driver_marks_done_and_persists_witness :
    envC5.saveFails "bad.json" = false ∧
    (parse_timestamp_from_filename "bad.json" = none ∨
      ∃ c, envC5.content "bad.json" = .ok c) ∧
    ∃ st', processOne envC5 ⟨⟨emptyDB, emptyDB⟩, [], [], ⟨0, 0, 0⟩⟩ "bad.json" =
        .ok st' ∧
      st'.doneList = ([] : List String) ++ ["bad.json"] ∧
      st'.persisted = st'.doneList :=
  ⟨rfl, Or.inl rfl,
   driver_marks_done_and_persists envC5 ⟨⟨emptyDB, emptyDB⟩, [], [], ⟨0, 0, 0⟩⟩
     "bad.json" rfl (Or.inl rfl)⟩

/-- The C8 scenario: one good file, with `save_progress` raising after its
processing. -/
def fC8 : String := "velib_20240101_080000_snap.json"

/-- Environment where every `save_progress` call raises. -/
def envC8 : Env :=
  { files := [fC8],
    content := fun _ => .ok (some (Json.arr [])),
    faults := fun _ => noFaults,
    saveFails := fun _ => true }

/-- C8 counterexample: `save_progress` raises after `fC8` was processed
and marked done in memory, but the run completes normally (`.ok`, nothing
propagates to the operator): the exception is caught by the per-file
handler and converted into `generic_error = 1`, with nothing persisted. -/
theorem save_failure_after_processing_swallowed :
    (import_data_from_folder envC8 .missing emptyDB).map
      (fun r => (r.errors, r.doneList, r.persisted)) =
      .ok (⟨0, 0, 1⟩, [fC8], []) := rfl

/-- C8 (amended): a `save_progress` failure is fatal to the run only in
the unparsable-timestamp branch, whose save call sits outside any `try`:
there the exception propagates out of `import_data_from_folder`.  (In the
normal branch it is caught and counted, per the counterexample.) -/
theorem save_progress_failure_fatal_only_unparsable
    (env : Env) (pf : ProgressFile) (db0 : DB) (done0 : List String)
    (f : String) (rest : List String)
    (hd : getDone (load_progress pf db0 env.files) = .ok done0)
    (hr : (env.files.filter isCandidate).filter (fun g => !done0.contains g) =
      f :: rest)
    (hp : parse_timestamp_from_filename f = none)
    (hs : env.saveFails f = true) :
    import_data_from_folder env pf db0 = .error () := by
  simp only [import_data_from_folder, hd, hr, List.foldlM_cons]
  simp [processOne, hp, hs, Bind.bind, Except.bind]

/-- Environment whose only file has an unparsable name and whose
`save_progress` raises. -/
def envC8w : Env :=
  { files := ["bad.json"],
    content := fun _ => .ok none,
    faults := fun _ => noFaults,
    saveFails := fun _ => true }

/-- Witness for `save_progress_failure_fatal_only_unparsable`. -/
theorem save_progress_failure_fatal_witness :
    getDone (load_progress .missing emptyDB envC8w.files) = .ok [] ∧
    (envC8w.files.filter isCandidate).filter
      (fun g => !([] : List String).contains g) = ["bad.json"] ∧
    parse_timestamp_from_filename "bad.json" = none ∧
    envC8w.saveFails "bad.json" = true ∧
    import_data_from_folder envC8w .missing emptyDB = .error () :=
  ⟨rfl, rfl, rfl, rfl,
   save_progress_failure_fatal_only_unparsable envC8w .missing emptyDB []
     "bad.json" [] rfl rfl rfl rfl⟩

/-- C6: `rebuild_progress_from_database` returns exactly the candidate
files (those ending in `.json` or `.gz`) of the input directory whose
parsed filename timestamp is among the stored snapshot timestamps; files
whose name does not parse are excluded from the rebuilt done-set. -/
theorem rebuild_done_set_exact (db : DB) (dirFiles : List String) (f : String) :
    f ∈ rebuild_progress_from_database db dirFiles ↔
      f ∈ dirFiles ∧ isCandidate f = true ∧
        ∃ t, parse_timestamp_from_filename f = some t ∧
          t ∈ db.snapshot.map (fun r => r.2) := by
  unfold rebuild_progress_from_database
  simp only [List.mem_filter]
  constructor
  · rintro ⟨⟨hdir, hcand⟩, hmatch⟩
    refine ⟨hdir, hcand, ?_⟩
    cases hp : parse_timestamp_from_filename f with
    | none => rw [hp] at hmatch; exact absurd hmatch (by simp)
    | some t =>
      rw [hp] at hmatch
      exact ⟨t, rfl, List.elem_iff.mp hmatch⟩
  · rintro ⟨hdir, hcand, t, hp, hmem⟩
    refine ⟨⟨hdir, hcand⟩, ?_⟩
    rw [hp]
    exact List.elem_iff.mpr hmem

/-- C9: first-writer-wins — on a successful (fault-free) processing of a
decoded snapshot list, every station and velo row already in the store is
kept verbatim (the committed dimension tables extend the old ones, and
every appended row has a key different from every pre-existing row, so an
existing `station_code`/`velo_name` is never overwritten or duplicated),
while for every extracted `etat_station` and `localisation_velo` row a row
with its `(snapshot_id, key)` that was not previously in the store is
committed; the error counters are untouched. -/
theorem first_writer_wins (items : List Json) (ts : DateTime) (conn : Conn)
    (errors : Errors) (b : Batches) (out : Conn × Errors)
    (hx : extractBatches (insertSnapshotGetId conn.pending ts).2 items = .ok b)
    (hE : ∀ x ∈ conn.pending.etat_station, ∀ e ∈ b.etat_station_buffer,
      x.snapshot_id ≠ e.snapshot_id)
    (hL : ∀ x ∈ conn.pending.localisation_velo, ∀ l ∈ b.localisation_velo_buffer,
      x.snapshot_id ≠ l.snapshot_id)
    (hout : process_file_content noFaults (some (Json.arr items)) ts conn errors =
      out) :
    out.2 = errors ∧
    (∃ suf, out.1.committed.station = conn.pending.station ++ suf ∧
      ∀ r ∈ suf, ∀ r0 ∈ conn.pending.station,
        r.station_code ≠ r0.station_code) ∧
    (∃ suf, out.1.committed.velo = conn.pending.velo ++ suf ∧
      ∀ r ∈ suf, ∀ r0 ∈ conn.pending.velo, r.velo_name ≠ r0.velo_name) ∧
    (∀ e ∈ b.etat_station_buffer, ∃ x ∈ out.1.committed.etat_station,
      x ∉ conn.pending.etat_station ∧
      x.snapshot_id = e.snapshot_id ∧ x.station_code = e.station_code) ∧
    (∀ l ∈ b.localisation_velo_buffer, ∃ x ∈ out.1.committed.localisation_velo,
      x ∉ conn.pending.localisation_velo ∧
      x.snapshot_id = l.snapshot_id ∧ x.velo_name = l.velo_name) := by
  have hrun := runAllBatches_ok noFaults b.station_buffer b.velo_buffer
    b.etat_station_buffer b.localisation_velo_buffer
    ((insertSnapshotGetId conn.pending ts).1)
    (Or.inl rfl) (Or.inl rfl) (Or.inl rfl) (Or.inl rfl)
  have hnf : noFaults.snapshotFail = false := rfl
  simp only [process_file_content, hnf, Bool.false_eq_true, if_false,
    hx, hrun, Conn.commit] at hout
  subst hout
  refine ⟨rfl, ?_, ?_, ?_, ?_⟩
  · show ∃ suf, (List.foldl insertLoc1 _ _).station = _ ∧ _
    rw [foldl_insertLoc1_station, foldl_insertEtat1_station,
      foldl_insertVelo1_station, foldl_insertStation1_station,
      insertSnapshotGetId_station]
    exact insertIfAbsent_foldl_extends (fun s => s.station_code)
      b.station_buffer conn.pending.station
  · show ∃ suf, (List.foldl insertLoc1 _ _).velo = _ ∧ _
    rw [foldl_insertLoc1_velo, foldl_insertEtat1_velo, foldl_insertVelo1_velo,
      foldl_insertStation1_velo, insertSnapshotGetId_velo]
    exact insertIfAbsent_foldl_extends (fun s => s.velo_name)
      b.velo_buffer conn.pending.velo
  · intro e he
    obtain ⟨x, hxmem, hkey⟩ := insertIfAbsent_foldl_covers
      (fun s => (s.snapshot_id, s.station_code)) b.etat_station_buffer
      conn.pending.etat_station e (Or.inl he)
    have hsid : x.snapshot_id = e.snapshot_id := congrArg Prod.fst hkey
    have hcode : x.station_code = e.station_code := congrArg Prod.snd hkey
    refine ⟨x, ?_, fun hmem => hE x hmem e he hsid, hsid, hcode⟩
    show x ∈ (List.foldl insertLoc1 _ _).etat_station
    rw [foldl_insertLoc1_etat, foldl_insertEtat1_etat, foldl_insertVelo1_etat,
      foldl_insertStation1_etat, insertSnapshotGetId_etat]
    exact hxmem
  · intro l hl
    obtain ⟨x, hxmem, hkey⟩ := insertIfAbsent_foldl_covers
      (fun s => (s.snapshot_id, s.velo_name)) b.localisation_velo_buffer
      conn.pending.localisation_velo l (Or.inl hl)
    have hsid : x.snapshot_id = l.snapshot_id := congrArg Prod.fst hkey
    have hname : x.velo_name = l.velo_name := congrArg Prod.snd hkey
    refine ⟨x, ?_, fun hmem => hL x hmem l hl hsid, hsid, hname⟩
    show x ∈ (List.foldl insertLoc1 _ _).localisation_velo
    rw [foldl_insertLoc1_loc, foldl_insertEtat1_loc, foldl_insertVelo1_loc,
      foldl_insertStation1_loc, insertSnapshotGetId_loc]
    exact hxmem

/-- Timestamp of the second snapshot of the first-writer-wins scenario. -/
def dt9 : DateTime := ⟨2024, 1, 1, 8, 5, 0⟩

/-- A later observation of station 16107 with `state="in_use"` and changed
counts, carrying the same bike. -/
def obs9 : Json := Json.obj
  [("station", Json.obj
      [("code", Json.str "16107"), ("name", Json.str "Test"),
       ("gps", Json.obj [("latitude", Json.num 48), ("longitude", Json.num 2)]),
       ("stationType", Json.null), ("type", Json.null)]),
   ("state", Json.str "in_use"), ("nbBike", Json.num 2),
   ("nbEbike", Json.num 0), ("nbFreeDock", Json.num 4),
   ("bikes", Json.arr [Json.obj
      [("bikeName", Json.str "BIKE1"), ("bikeElectric", Json.bool true),
       ("bikeStatus", Json.str "free"), ("dockPosition", Json.num 1)]])]

/-- Store state after the first snapshot: station 16107 and bike BIKE1
already exist. -/
def dbPrev9 : DB :=
  { snapshot := [(0, ⟨2024, 1, 1, 8, 0, 0⟩)],
    station := [⟨Json.str "16107", Json.str "Test", Json.num 48, Json.num 2,
      Json.null, Json.null⟩],
    velo := [⟨Json.str "BIKE1", Json.bool true⟩],
    etat_station := [⟨0, Json.str "16107", Json.str "ok", Json.num 1,
      Json.num 1, Json.num 5⟩],
    localisation_velo := [⟨0, Json.str "BIKE1", Json.str "16107",
      Json.str "free", Json.num 1⟩],
    next_id := 1 }

/-- The batches extracted from `[obs9]` with the fresh snapshot id 1. -/
def b9 : Batches :=
  { station_buffer := [⟨Json.str "16107", Json.str "Test", Json.num 48,
      Json.num 2, Json.null, Json.null⟩],
    velo_buffer := [⟨Json.str "BIKE1", Json.bool true⟩],
    etat_station_buffer := [⟨1, Json.str "16107", Json.str "in_use",
      Json.num 2, Json.num 0, Json.num 4⟩],
    localisation_velo_buffer := [⟨1, Json.str "BIKE1", Json.str "16107",
      Json.str "free", Json.num 1⟩] }

/-- Result of processing the second snapshot over `dbPrev9`. -/
def out9 : Conn × Errors :=
  process_file_content noFaults (some (Json.arr [obs9])) dt9
    ⟨dbPrev9, dbPrev9⟩ ⟨0, 0, 0⟩

/-- Witness for `first_writer_wins`: processing the spec's second-snapshot
scenario over a store that already holds station 16107 and bike BIKE1. -/
theorem first_writer_wins_witness :
    (extractBatches (insertSnapshotGetId dbPrev9 dt9).2 [obs9] = .ok b9) ∧
    (∀ x ∈ dbPrev9.etat_station, ∀ e ∈ b9.etat_station_buffer,
      x.snapshot_id ≠ e.snapshot_id) ∧
    (∀ x ∈ dbPrev9.localisation_velo, ∀ l ∈ b9.localisation_velo_buffer,
      x.snapshot_id ≠ l.snapshot_id) ∧
    (out9.2 = ⟨0, 0, 0⟩ ∧
     (∃ suf, out9.1.committed.station = dbPrev9.station ++ suf ∧
       ∀ r ∈ suf, ∀ r0 ∈ dbPrev9.station, r.station_code ≠ r0.station_code) ∧
     (∃ suf, out9.1.committed.velo = dbPrev9.velo ++ suf ∧
       ∀ r ∈ suf, ∀ r0 ∈ dbPrev9.velo, r.velo_name ≠ r0.velo_name) ∧
     (∀ e ∈ b9.etat_station_buffer, ∃ x ∈ out9.1.committed.etat_station,
       x ∉ dbPrev9.etat_station ∧ x.snapshot_id = e.snapshot_id ∧
       x.station_code = e.station_code) ∧
     (∀ l ∈ b9.localisation_velo_buffer,
       ∃ x ∈ out9.1.committed.localisation_velo,
       x ∉ dbPrev9.localisation_velo ∧ x.snapshot_id = l.snapshot_id ∧
       x.velo_name = l.velo_name)) :=
  ⟨rfl, by decide, by decide,
   first_writer_wins [obs9] dt9 ⟨dbPrev9, dbPrev9⟩ ⟨0, 0, 0⟩ b9 out9
     rfl (by decide) (by decide) rfl⟩

/-! ## Idempotence of the driver -/

/-- Does the file's terminal outcome mark it done?  Every outcome does,
except a read error (a file whose timestamp parses but whose read
raises). -/
def fileMarked (env : Env) (f : String) : Bool :=
  match parse_timestamp_from_filename f with
  | none => true
  | some _ =>
    match env.content f with
    | .ok _ => true
    | .error _ => false

theorem doneEntries_map_str (done : List String) :
    doneEntries (done.map Json.str) = .ok done := by
  induction done with
  | nil => rfl
  | cons s done ih => simp [doneEntries, ih, Bind.bind, Except.bind, Pure.pure, Except.pure]

theorem getDone_progressJson (done : List String) :
    getDone (progressJson done) = .ok done := by
  show doneEntries (done.map Json.str) = .ok done
  exact doneEntries_map_str done

/-- Run-one invariant: with `save_progress` never raising, the loop
completes, keeps the persisted done-list equal to the in-memory one, and
appends exactly the marked files. -/
theorem loop_no_savefail (env : Env) (hs : ∀ f, env.saveFails f = false) :
    ∀ (L : List String) (st : LoopState), st.persisted = st.doneList →
      ∃ st', L.foldlM (processOne env) st = .ok st' ∧
        st'.persisted = st'.doneList ∧
        st'.doneList = st.doneList ++ L.filter (fileMarked env) := by
  intro L
  induction L with
  | nil => intro st hinv; exact ⟨st, rfl, hinv, by simp⟩
  | cons f L ih =>
    intro st hinv
    cases hp : parse_timestamp_from_filename f with
    | none =>
      have hstep : processOne env st f = .ok
          { st with
            errors :=
              { st.errors with generic_error := st.errors.generic_error + 1 },
            doneList := st.doneList ++ [f],
            persisted := st.doneList ++ [f] } := by
        simp [processOne, hp, hs f]
      obtain ⟨st', hfold, hinv', hdone⟩ := ih
        { st with
          errors :=
            { st.errors with generic_error := st.errors.generic_error + 1 },
          doneList := st.doneList ++ [f],
          persisted := st.doneList ++ [f] } rfl
      refine ⟨st', ?_, hinv', ?_⟩
      · rw [List.foldlM_cons, hstep]; exact hfold
      · rw [hdone]
        have hm : fileMarked env f = true := by simp [fileMarked, hp]
        simp [List.filter_cons, hm]
    | some ts =>
      cases hc : env.content f with
      | error e =>
        have hstep : processOne env st f = .ok
            { st with errors :=
                { st.errors with
                  generic_error := st.errors.generic_error + 1 } } := by
          simp [processOne, hp, hc]
        obtain ⟨st', hfold, hinv', hdone⟩ := ih
          { st with errors :=
              { st.errors with generic_error := st.errors.generic_error + 1 } }
          hinv
        refine ⟨st', ?_, hinv', ?_⟩
        · rw [List.foldlM_cons, hstep]; exact hfold
        · rw [hdone]
          have hm : fileMarked env f = false := by simp [fileMarked, hp, hc]
          simp [List.filter_cons, hm]
      | ok c =>
        have hstep : processOne env st f = .ok
            { conn := (process_file_content (env.faults f) c ts st.conn st.errors).1,
              doneList := st.doneList ++ [f],
              persisted := st.doneList ++ [f],
              errors :=
                (process_file_content (env.faults f) c ts st.conn st.errors).2 } := by
          simp [processOne, hp, hc, hs f]
        obtain ⟨st', hfold, hinv', hdone⟩ := ih
          { conn := (process_file_content (env.faults f) c ts st.conn st.errors).1,
            doneList := st.doneList ++ [f],
            persisted := st.doneList ++ [f],
            errors :=
              (process_file_content (env.faults f) c ts st.conn st.errors).2 }
          rfl
        refine ⟨st', ?_, hinv', ?_⟩
        · rw [List.foldlM_cons, hstep]; exact hfold
        · rw [hdone]
          have hm : fileMarked env f = true := by simp [fileMarked, hp, hc]
          simp [List.filter_cons, hm]

/-- Run-two invariant: over files whose outcome is a read error, the loop
completes without touching the connection or the done-lists. -/
theorem loop_unmarked (env : Env) :
    ∀ (L : List String) (st : LoopState),
      (∀ f ∈ L, fileMarked env f = false) →
      ∃ st', L.foldlM (processOne env) st = .ok st' ∧
        st'.conn = st.conn ∧ st'.doneList = st.doneList ∧
        st'.persisted = st.persisted := by
  intro L
  induction L with
  | nil => intro st _; exact ⟨st, rfl, rfl, rfl, rfl⟩
  | cons f L ih =>
    intro st hun
    have hf := hun f (List.mem_cons_self f L)
    cases hp : parse_timestamp_from_filename f with
    | none => simp [fileMarked, hp] at hf
    | some ts =>
      cases hc : env.content f with
      | ok c => simp [fileMarked, hp, hc] at hf
      | error e =>
        have hstep : processOne env st f = .ok
            { st with errors :=
                { st.errors with
                  generic_error := st.errors.generic_error + 1 } } := by
          simp [processOne, hp, hc]
        obtain ⟨st', hfold, h1, h2, h3⟩ := ih
          { st with errors :=
              { st.errors with generic_error := st.errors.generic_error + 1 } }
          (fun g hg => hun g (List.mem_cons_of_mem f hg))
        refine ⟨st', ?_, h1, h2, h3⟩
        rw [List.foldlM_cons, hstep]; exact hfold

/-- C1: idempotence of the pipeline — in a run where `save_progress`
succeeds, every filename in the persisted done-set is excluded from the
next run's remaining list (`remaining = all candidate files minus done`),
and re-running `import_data_from_folder` over the unchanged input
directory against the progress record and database produced by the first
run completes with the relational state — the snapshot, station, velo,
etat_station and localisation_velo tables — identical to after the first
run. -/
theorem import_idempotent (env : Env) (pf : ProgressFile) (db0 : DB)
    (r1 : RunResult)
    (hs : ∀ f, env.saveFails f = false)
    (h1 : import_data_from_folder env pf db0 = .ok r1) :
    (∀ f ∈ r1.persisted,
      f ∉ (env.files.filter isCandidate).filter
        (fun g => !r1.persisted.contains g)) ∧
    ∃ r2, import_data_from_folder env
        (.present (some (progressJson r1.persisted))) r1.db = .ok r2 ∧
      r2.db = r1.db := by
  constructor
  · intro f hf hmem
    have hnc := (List.mem_filter.mp hmem).2
    rw [Bool.not_eq_true'] at hnc
    have h2 : r1.persisted.contains f = true := List.elem_iff.mpr hf
    rw [h2] at hnc
    exact Bool.noConfusion hnc
  · unfold import_data_from_folder at h1
    cases hd : getDone (load_progress pf db0 env.files) with
    | error e => rw [hd] at h1; exact Except.noConfusion h1
    | ok done0 =>
      simp only [hd] at h1
      obtain ⟨st1, hfold1, hinv1, hdone1⟩ := loop_no_savefail env hs
        ((env.files.filter isCandidate).filter (fun f => !done0.contains f))
        ⟨⟨db0, db0⟩, done0, done0, ⟨0, 0, 0⟩⟩ rfl
      simp only [hfold1] at h1
      obtain rfl := Except.ok.inj h1
      dsimp only
      rw [hinv1, hdone1]
      dsimp only
      have hun : ∀ f ∈ (env.files.filter isCandidate).filter
          (fun g => !((done0 ++
            ((env.files.filter isCandidate).filter
              (fun f => !done0.contains f)).filter
                (fileMarked env)).contains g)),
          fileMarked env f = false := by
        intro f hf
        obtain ⟨hall, hnc⟩ := List.mem_filter.mp hf
        rw [Bool.not_eq_true'] at hnc
        have hnotP : f ∉ done0 ++
            ((env.files.filter isCandidate).filter
              (fun f => !done0.contains f)).filter (fileMarked env) := by
          intro hmem
          have h2 : (done0 ++
              ((env.files.filter isCandidate).filter
                (fun f => !done0.contains f)).filter
                  (fileMarked env)).contains f = true :=
            List.elem_iff.mpr hmem
          rw [h2] at hnc
          exact Bool.noConfusion hnc
        cases hm : fileMarked env f with
        | false => rfl
        | true =>
          exfalso
          have hnd : f ∉ done0 := fun hd0 => hnotP (List.mem_append_left _ hd0)
          have hcf : done0.contains f = false :=
            Bool.eq_false_iff.mpr (fun hc => hnd (List.elem_iff.mp hc))
          have hrem : f ∈ (env.files.filter isCandidate).filter
              (fun f => !done0.contains f) :=
            List.mem_filter.mpr ⟨hall, by
              show (!done0.contains f) = true
              rw [hcf]; rfl⟩
          exact hnotP (List.mem_append_right _
            (List.mem_filter.mpr ⟨hrem, hm⟩))
      obtain ⟨st2, hfold2, hconn2, _, _⟩ := loop_unmarked env
        ((env.files.filter isCandidate).filter
          (fun g => !((done0 ++
            ((env.files.filter isCandidate).filter
              (fun f => !done0.contains f)).filter
                (fileMarked env)).contains g)))
        ⟨⟨st1.conn.committed, st1.conn.committed⟩,
          done0 ++ ((env.files.filter isCandidate).filter
            (fun f => !done0.contains f)).filter (fileMarked env),
          done0 ++ ((env.files.filter isCandidate).filter
            (fun f => !done0.contains f)).filter (fileMarked env),
          ⟨0, 0, 0⟩⟩ hun
      refine ⟨⟨st2.conn.committed, st2.doneList, st2.persisted, st2.errors⟩,
        ?_, ?_⟩
      · unfold import_data_from_folder
        simp only [load_progress, getDone_progressJson, hfold2]
      · have h3 := congrArg Conn.committed hconn2
        exact h3

/-- The single good file of the idempotence witness environment. -/
def fC1 : String := "velib_20240101_080000_snap.json"

/-- An input directory with one well-formed, empty snapshot file. -/
def envC1 : Env :=
  { files := [fC1],
    content := fun _ => .ok (some (Json.arr [])),
    faults := fun _ => noFaults,
    saveFails := fun _ => false }

/-- Result of the first run of `envC1` from an empty store. -/
def r1C1 : RunResult :=
  { db := { snapshot := [(0, ⟨2024, 1, 1, 8, 0, 0⟩)], station := [],
            velo := [], etat_station := [], localisation_velo := [],
            next_id := 1 },
    doneList := [fC1], persisted := [fC1], errors := ⟨0, 0, 0⟩ }

/-- Witness for `import_idempotent`: one concrete first run followed by an
identical second run. -/
theorem import_idempotent_witness :
    (∀ f, envC1.saveFails f = false) ∧
    import_data_from_folder envC1 .missing emptyDB = .ok r1C1 ∧
    ((∀ f ∈ r1C1.persisted,
       f ∉ (envC1.files.filter isCandidate).filter
         (fun g => !r1C1.persisted.contains g)) ∧
     ∃ r2, import_data_from_folder envC1
         (.present (some (progressJson r1C1.persisted))) r1C1.db = .ok r2 ∧
       r2.db = r1C1.db) :=
  ⟨fun _ => rfl, rfl,
   import_idempotent envC1 .missing emptyDB r1C1 (fun _ => rfl) rfl⟩

end Velib
